import Mathlib

/-!
Verification development for the result-collection core of the `maldi_amr`
repository (`amr_maldi_ml/collect_results.py`).

The Python source is shallowly embedded below:

* Python dicts become association lists (`List (String × _)`) with
  insertion-order-preserving overwrite (`dictInsert`) and lookup (`dictGet`),
  matching CPython dict semantics.
* JSON scalars/lists/nested fold objects become the `JValue` type.  The fold
  objects that the script reads (`data_raw[fold][metric]`) only ever carry
  numeric leaves, so nested objects are modelled as `List (String × ℚ)`.
* Python floats are modelled as ℚ (all values the claims exercise are exact
  decimals); `numpy`/`pandas` aggregation is modelled at the variance level so
  every definition stays executable: pandas' `std` is the square root of
  `listSampleVar` below, so a claim "std = s" is settled as "variance = s²".
* Exceptions (`KeyError`, `TypeError`, `json.JSONDecodeError`) become
  `Except PyErr`; an uncaught exception aborting the run is an `Except.error`
  result of the whole pipeline fold.
* `json.load` is an external library call; the loader is parameterised over an
  abstract `parse : List String → Option RawRecord` (`none` = malformed).
* Files are modelled as their list of lines; the script's byte-offset
  bookkeeping (`pos += len(line)`; `f.seek(pos)`) amounts, for the ASCII files
  it is written for, to restarting at the first line beginning with `{`
  (`dropToBrace`), or at end-of-file when no such line exists.
-/

/-- Boolean prefix test on character lists. -/
def charsPrefixOf : List Char → List Char → Bool
  | [], _ => true
  | _ :: _, [] => false
  | a :: as, b :: bs => a = b && charsPrefixOf as bs

/-- Boolean infix (substring) test: does `pat` occur inside the second list?
Models Python's `pat in s` on strings. -/
def charsContains (pat : List Char) : List Char → Bool
  | [] => charsPrefixOf pat []
  | c :: cs => charsPrefixOf pat (c :: cs) || charsContains pat cs

/-- Python `pat in s` (substring containment). -/
def strContains (s pat : String) : Bool :=
  charsContains pat.data s.data

/-- Replace every non-overlapping occurrence of `pat` (assumed nonempty, as in
the script's `fold.replace('test_', '')`) by `rep`, left to right; models
Python `str.replace` for nonempty patterns.  The extra `Nat` argument is
structural-recursion fuel (each step consumes at least one character, so any
fuel at least the length of the scanned list is enough); it keeps the
definition kernel-reducible. -/
def charsReplace (pat rep : List Char) : Nat → List Char → List Char
  | _, [] => []
  | 0, s => s
  | n + 1, c :: cs =>
      if charsPrefixOf pat (c :: cs) && decide (0 < pat.length) then
        rep ++ charsReplace pat rep n (List.drop (pat.length - 1) cs)
      else
        c :: charsReplace pat rep n cs

/-- Python `s.replace(pat, rep)` (for nonempty `pat`). -/
def strReplace (s pat rep : String) : String :=
  String.mk (charsReplace pat.data rep.data s.data.length s.data)

/-- Python `str.isnumeric()` restricted to ASCII digits (the fold keys the
script probes are `"0"`, `"1"`, …). -/
def isNumericStr (s : String) : Bool :=
  !s.data.isEmpty && s.data.all Char.isDigit

/-- Lookup in an insertion-ordered association list (Python `d.get(k)` /
`d[k]`). -/
def dictGet {α : Type} : List (String × α) → String → Option α
  | [], _ => none
  | (k', v') :: rest, k => if k' = k then some v' else dictGet rest k

/-- Python dict assignment `d[k] = v`: overwrite in place if the key exists,
else append at the end (insertion order preserved). -/
def dictInsert {α : Type} : List (String × α) → String → α → List (String × α)
  | [], k, v => [(k, v)]
  | (k', v') :: rest, k, v =>
      if k' = k then (k, v) :: rest else (k', v') :: dictInsert rest k v

/-- Helper of `dedupFirst`: keep the elements not yet seen. -/
def dedupFirstAux {α : Type} [DecidableEq α] (seen : List α) : List α → List α
  | [] => []
  | a :: as => if a ∈ seen then dedupFirstAux seen as else a :: dedupFirstAux (a :: seen) as

/-- Keep the first occurrence of each element (Python dict-comprehension key
deduplication, insertion order preserved). -/
def dedupFirst {α : Type} [DecidableEq α] (l : List α) : List α :=
  dedupFirstAux [] l

/-- Boolean code-point-lexicographic comparison on character lists; this is the
order Python's `sorted` uses on strings. -/
def charsLeb : List Char → List Char → Bool
  | [], _ => true
  | _ :: _, [] => false
  | a :: as, b :: bs =>
      if a.toNat < b.toNat then true
      else if b.toNat < a.toNat then false
      else charsLeb as bs

/-- The lexicographic order on strings used by Python's `sorted`. -/
def pyLe (a b : String) : Prop := charsLeb a.data b.data = true

instance : DecidableRel pyLe := fun a b => by
  unfold pyLe; infer_instance

theorem charsLeb_total (a b : List Char) : charsLeb a b = true ∨ charsLeb b a = true := by
  induction a generalizing b with
  | nil => left; rfl
  | cons x xs ih =>
      cases b with
      | nil => right; rfl
      | cons y ys =>
          by_cases h1 : x.toNat < y.toNat
          · left; simp [charsLeb, h1]
          · by_cases h2 : y.toNat < x.toNat
            · right; simp [charsLeb, h2]
            · rcases ih ys with h | h
              · left; simp [charsLeb, h1, h2, h]
              · right; simp [charsLeb, h1, h2, h]

theorem charsLeb_trans (a b c : List Char) (hab : charsLeb a b = true)
    (hbc : charsLeb b c = true) : charsLeb a c = true := by
  induction a generalizing b c with
  | nil => rfl
  | cons x xs ih =>
      cases b with
      | nil => simp [charsLeb] at hab
      | cons y ys =>
          cases c with
          | nil => simp [charsLeb] at hbc
          | cons z zs =>
              simp only [charsLeb] at hab hbc ⊢
              by_cases hxz : x.toNat < z.toNat
              · simp [hxz]
              · by_cases hzx : z.toNat < x.toNat
                · exfalso
                  by_cases hxy : x.toNat < y.toNat
                  · simp [show ¬ y.toNat < z.toNat by omega,
                          show z.toNat < y.toNat by omega] at hbc
                  · by_cases hyx : y.toNat < x.toNat
                    · simp [hxy, hyx] at hab
                    · simp [show ¬ y.toNat < z.toNat by omega,
                            show z.toNat < y.toNat by omega] at hbc
                · simp only [hxz, hzx, if_false]
                  by_cases hxy : x.toNat < y.toNat
                  · exfalso
                    simp [show ¬ y.toNat < z.toNat by omega,
                          show z.toNat < y.toNat by omega] at hbc
                  · by_cases hyx : y.toNat < x.toNat
                    · exfalso; simp [hxy, hyx] at hab
                    · simp only [hxy, hyx, if_false] at hab
                      simp only [show ¬ y.toNat < z.toNat by omega,
                                 show ¬ z.toNat < y.toNat by omega, if_false] at hbc
                      exact ih ys zs hab hbc

instance : IsTotal String pyLe := ⟨fun a b => charsLeb_total a.data b.data⟩

instance : IsTrans String pyLe := ⟨fun a b c => charsLeb_trans a.data b.data c.data⟩

/-- Python `sorted` on a list of strings (lexicographic on code points; on a
linear order the sorted permutation is unique, so a stable insertion sort
computes exactly `sorted`'s output). -/
def pySorted (l : List String) : List String :=
  List.insertionSort pyLe l

/-- Arithmetic mean of a list of values; `none` models pandas' `NaN` for an
empty list (pandas `mean` skips missing values, so the caller pre-filters). -/
def listMean (vs : List ℚ) : Option ℚ :=
  if vs.length = 0 then none else some (vs.sum / (vs.length : ℚ))

/-- Sample variance with Bessel's correction (`ddof = 1`): pandas'
`std` — which is what `.agg([np.mean, np.std])` dispatches to — is the square
root of this.  `none` models the `NaN` pandas returns for fewer than two
samples. -/
def listSampleVar (vs : List ℚ) : Option ℚ :=
  if vs.length ≤ 1 then none
  else some (((vs.map (fun v => (v - vs.sum / (vs.length : ℚ)) ^ 2)).sum) / ((vs.length : ℚ) - 1))

/-- Modelled from the spec: the *population* standard deviation squared
(variance with divisor `n`), the statistic the spec's sentence "std =
population std of [90.0, 80.0]" refers to.  Kept only to compare the spec's
wording against the code's sample-variance behaviour. -/
def popVariance (vs : List ℚ) : ℚ :=
  ((vs.map (fun v => (v - vs.sum / (vs.length : ℚ)) ^ 2)).sum) / (vs.length : ℚ)

/-- pandas `rank(ascending=False)` with the default `method='average'`:
the rank of value `v` among the values `vs` of its group is the number of
strictly greater values plus the average position within its tie class. -/
def avgRank (vs : List ℚ) (v : ℚ) : ℚ :=
  ((vs.countP (fun u => decide (v < u)) : ℚ)) +
    (((vs.countP (fun u => decide (u = v)) : ℚ)) + 1) / 2

/-- Python `os.path.splitext(fn)[1]`: the extension starting at the last dot of the
basename, empty when the only dots are leading ones. -/
def extOf (s : String) : String :=
  let r := s.data.reverse
  let suffixRev := r.takeWhile (fun c => c ≠ '.')
  match r.drop suffixRev.length with
  | [] => ""
  | _ :: preRev =>
      if preRev.any (fun c => c ≠ '.') then String.mk ('.' :: suffixRev.reverse) else ""

/-- Python `os.path.join(root, fn)` for the relative basenames `os.walk` yields. -/
def pathJoin (root fn : String) : String :=
  if root = "" then fn
  else if root.endsWith "/" then root ++ fn
  else root ++ "/" ++ fn

/-- A JSON value as the script consumes it: string scalars, numeric scalars,
lists of strings (the `train_years`/`test_years` sequences), and the nested
per-fold objects, whose leaves are the numeric metric values the script reads. -/
inductive JValue : Type where
  | str : String → JValue
  | num : ℚ → JValue
  | arr : List String → JValue
  | obj : List (String × ℚ) → JValue
deriving DecidableEq, Repr

/-- One parsed result document (`data_raw`), as a Python dict. -/
def RawRecord : Type := List (String × JValue)

/-- One flat output row, as a Python dict. -/
def Row : Type := List (String × JValue)

instance : DecidableEq RawRecord := by unfold RawRecord; infer_instance

instance : DecidableEq Row := by unfold Row; infer_instance

/-- The uncaught Python exceptions that abort the run. -/
inductive PyErr : Type where
  | keyErr : String → PyErr
  | typeErr : PyErr
  | jsonErr : PyErr
deriving DecidableEq, Repr

/-- The initial `metrics` list (collect_results.py line 64). -/
def metricsInit : List String :=
  ["auroc", "auprc", "accuracy", "train_auroc", "train_auprc", "train_accuracy"]

/-- The hard-coded fold-schema metric names (lines 149-156; the accuracy
variants are commented out in the source). -/
def foldMetricNames : List String :=
  ["test_source_auprc", "test_source_auroc", "test_target_auprc", "test_target_auroc"]

/-- The read `data_raw[metric] * 100.0` of the flat branch: the value must be numeric
(anything else raises `TypeError` when multiplied by a float). -/
def getNumScaled (data_raw : RawRecord) (metric : String) : Except PyErr ℚ :=
  match dictGet data_raw metric with
  | some (JValue.num q) => Except.ok (q * 100)
  | some _ => Except.error PyErr.typeErr
  | none => Except.error (PyErr.keyErr metric)

/-- The read `data_raw[fold][metric]` of the fold branch: `KeyError` when either key is
absent, `TypeError` when `data_raw[fold]` is not an object. -/
def getFoldVal (data_raw : RawRecord) (fold metric : String) : Except PyErr ℚ :=
  match dictGet data_raw fold with
  | some (JValue.obj kvs) =>
      match dictGet kvs metric with
      | some q => Except.ok q
      | none => Except.error (PyErr.keyErr metric)
  | some _ => Except.error PyErr.typeErr
  | none => Except.error (PyErr.keyErr fold)

/-- The per-record body of the loading loop (collect_results.py lines
109-174): build the identity fields, optionally the stratification fields,
discover the metric keys by substring scan against the *current* `metrics`
list, and fill the row from either the flat or the nested-fold schema.
Returns the single appended row together with the new value of the mutable
`metrics` variable (the source assigns `metrics = metrics_` /
`metrics = sorted(metrics_)` on every processed record).  Note that in the
fold branch the source updates the same `row` dict on every fold iteration
and appends it once, so later folds overwrite earlier ones; the dead local
`name = fold.replace(...)` assignments (lines 160-161) bind a variable that
is never read and are omitted. -/
def buildRow (metrics : List String) (data_raw : RawRecord) :
    Except PyErr (Row × List String) := do
  let antibiotic ←
    match dictGet data_raw "antibiotic" with
    | some v => Except.ok v
    | none => Except.error (PyErr.keyErr "antibiotic")
  let row : Row :=
    [("species", (dictGet data_raw "species").getD (JValue.str "all")),
     ("antibiotic", antibiotic),
     ("model", (dictGet data_raw "model").getD (JValue.str "lr"))]
  let row : Row :=
    match dictGet data_raw "train_site", dictGet data_raw "test_site" with
    | some ts, some vs => dictInsert (dictInsert row "train_site" ts) "test_site" vs
    | _, _ => row
  let row : Row ←
    match dictGet data_raw "train_years", dictGet data_raw "test_years" with
    | some (JValue.arr tys), some (JValue.arr vys) =>
        Except.ok (dictInsert
          (dictInsert row "train_years" (JValue.str (String.intercalate " " tys)))
          "test_years" (JValue.str (String.intercalate " " vys)))
    | some _, some _ => Except.error PyErr.typeErr
    | _, _ => Except.ok row
  let metricsFound : List String :=
    (metrics.map (fun metric =>
      (data_raw.map Prod.fst).filter (fun key => strContains key metric))).flatten
  if metricsFound.length = 0 then
    let folds : List String := (data_raw.map Prod.fst).filter isNumericStr
    let row : Row ← folds.foldlM (fun row fold =>
      foldMetricNames.foldlM (fun row metric => do
        let v ← getFoldVal data_raw fold metric
        Except.ok (dictInsert
          (dictInsert row "fold" (JValue.str (strReplace fold "test_" "")))
          metric (JValue.num v))) row) row
    Except.ok (row, foldMetricNames)
  else
    let ms : List String := pySorted metricsFound
    let row : Row ← ms.foldlM (fun row metric => do
      let v ← getNumScaled data_raw metric
      Except.ok (dictInsert row metric (JValue.num v))) row
    Except.ok (row, ms)

/-- The mutable state of the loading loop: the accumulated `rows` list and the
current value of the reassigned `metrics` variable. -/
structure PState : Type where
  rows : List Row
  metrics : List String
deriving DecidableEq

/-- The state before the first file is read. -/
def initState : PState := ⟨[], metricsInit⟩

/-- Process one parsed record: build its row, append it, update `metrics`. -/
def recordStep (st : PState) (data_raw : RawRecord) : Except PyErr PState := do
  let (row, ms) ← buildRow st.metrics data_raw
  Except.ok ⟨st.rows ++ [row], ms⟩

/-- Fold the loading loop over a list of already-parsed records. -/
def processRecords (recs : List RawRecord) : Except PyErr PState :=
  recs.foldlM recordStep initState

/-- The prefix scan of the loader (lines 84-105): drop lines until the first
one beginning with `{`; the script then seeks back to that position, so the
remaining content is that line and everything after it.  An empty result is
exactly the situation in which the script's `readline()` returns `''` and the
file is skipped. -/
def dropToBrace : List String → List String
  | [] => []
  | l :: ls => if l.startsWith "\x7b" then l :: ls else dropToBrace ls

/-- Process one file (lines 80-174): skip it when nothing remains after the
prefix scan, abort with `jsonErr` when the remaining content is not valid
JSON (`json.load` raises and nothing catches it), otherwise process the
parsed record.  `parse` abstracts the external `json.load`. -/
def fileStep (parse : List String → Option RawRecord) (st : PState)
    (lines : List String) : Except PyErr PState :=
  match dropToBrace lines with
  | [] => Except.ok st
  | rest =>
      match parse rest with
      | none => Except.error PyErr.jsonErr
      | some data_raw => recordStep st data_raw

/-- The whole loading loop over a batch of files (each given as its lines). -/
def processFiles (parse : List String → Option RawRecord)
    (files : List (List String)) : Except PyErr PState :=
  files.foldlM (fileStep parse) initState

/-- Python `c in df.columns` for the DataFrame built from the row dicts: the column
exists as soon as any row carries the key. -/
def hasColumn (rows : List Row) (c : String) : Bool :=
  rows.any (fun r => (dictGet r c).isSome)

/-- The grouping key columns (lines 181-185): the three identity columns,
extended by a stratification pair whenever both of its columns appear
anywhere in the batch. -/
def groupColumns (rows : List Row) : List String :=
  (["species", "antibiotic", "model"] ++
    (if hasColumn rows "train_site" && hasColumn rows "test_site" then
      ["train_site", "test_site"] else [])) ++
    (if hasColumn rows "train_years" && hasColumn rows "test_years" then
      ["train_years", "test_years"] else [])

/-- The group key of one row: its values at the grouping columns, or `none`
when any of them is missing — pandas fills such cells with `NaN` and
`groupby` (default `dropna=True`) then drops the row from every group. -/
def rowKey (cols : List String) (r : Row) : Option (List JValue) :=
  cols.mapM (dictGet r)

/-- The rows of one group. -/
def groupRows (cols : List String) (rows : List Row) (key : List JValue) : List Row :=
  rows.filter (fun r => decide (rowKey cols r = some key))

/-- The numeric value of a row at a metric column, if present. -/
def numAt (metric : String) (r : Row) : Option ℚ :=
  match dictGet r metric with
  | some (JValue.num q) => some q
  | _ => none

/-- The metric values of one group, missing cells skipped (pandas `mean` and
`std` default to `skipna=True`). -/
def groupVals (cols : List String) (rows : List Row) (key : List JValue)
    (metric : String) : List ℚ :=
  (groupRows cols rows key).filterMap (numAt metric)

/-- The (mean, sample variance) summary of one metric over one group — the
`np.mean`/`np.std` aggregation of line 189-193; pandas' reported std is the
square root of the second component. -/
def aggSummary (rows : List Row) (key : List JValue) (metric : String) :
    Option ℚ × Option ℚ :=
  let vals := groupVals (groupColumns rows) rows key metric
  (listMean vals, listSampleVar vals)

/-- The group keys of the aggregated frame (rows whose key has a missing
value contribute none; each key once).  The aggregated table is modelled as
this key set with `aggSummary` at each key — pandas additionally sorts the
keys, which no claim depends on. -/
def aggKeys (rows : List Row) : List (List JValue) :=
  dedupFirst (rows.filterMap (rowKey (groupColumns rows)))

/-- The metric columns of the aggregation dict
`{metric: [np.mean, np.std] for metric in metrics}`: dict keys deduplicate. -/
def aggColumns (metrics : List String) : List String :=
  dedupFirst metrics

/-- The aggregated table of lines 189-193: one entry per group key, carrying
the (mean, sample variance) pair for every aggregated metric column. -/
def aggTable (rows : List Row) (metrics : List String) :
    List (List JValue × List (String × (Option ℚ × Option ℚ))) :=
  (aggKeys rows).map (fun key =>
    (key, (aggColumns metrics).map (fun metric => (metric, aggSummary rows key metric))))

/-- One row of the ranking frame `df = df[rank_by][['mean','std']]`: the full
group key with the mean and the sample variance (the std column, kept in
variance form) of the chosen metric. -/
structure AggEntry : Type where
  key : List JValue
  meanV : Option ℚ
  svar : Option ℚ
deriving DecidableEq

/-- The ranking frame: one entry per aggregated group, restricted to the
chosen metric. -/
def aggEntries (rows : List Row) (metric : String) : List AggEntry :=
  (aggKeys rows).map (fun key =>
    ⟨key, (aggSummary rows key metric).1, (aggSummary rows key metric).2⟩)

/-- The (species, antibiotic) scenario of a group key: its first two
components (`groupColumns` always starts with these two). -/
def scenKey (key : List JValue) : List JValue := key.take 2

/-- The mean values competing in the scenario of entry `e`
(`groupby(['species','antibiotic'])['mean']`); entries with a `NaN` mean are
skipped by `rank`, matching the `filterMap`. -/
def scenMeans (entries : List AggEntry) (e : AggEntry) : List ℚ :=
  (entries.filter (fun x => decide (scenKey x.key = scenKey e.key))).filterMap AggEntry.meanV

/-- The `rank(ascending=False)` column (lines 200-203): the average rank of
the entry's mean among its scenario's means, `NaN` for a `NaN` mean. -/
def rankOfEntry (entries : List AggEntry) (e : AggEntry) : Option ℚ :=
  e.meanV.map (fun m => avgRank (scenMeans entries e) m)

/-- The count `df.groupby(['species','antibiotic']).size()` at one scenario: the number
of aggregated rows — NOT the number of distinct models — in the scenario. -/
def scenSize (entries : List AggEntry) (s : List JValue) : ℕ :=
  entries.countP (fun e => decide (scenKey e.key = s))

/-- The `valid_combinations` filter (lines 211-226): keep exactly the entries
whose scenario has more than one aggregated row. -/
def retainedEntries (entries : List AggEntry) : List AggEntry :=
  entries.filter (fun e => decide (1 < scenSize entries (scenKey e.key)))

/-- The model component of a group key (third grouping column). -/
def modelOfEntry (e : AggEntry) : JValue :=
  (e.key.drop 2).headD (JValue.str "")

/-- The final `df.groupby('model').mean()` (line 230) applied to the retained
entries: for each model, the mean of its retained group means, of its
retained variances (std column in the source), and of its ranks; ranks are
the ones computed on the full frame before the filter, exactly as in the
source, where the rank column is concatenated before `valid_combinations` is
applied.  pandas additionally sorts the model index, which no claim uses. -/
def rankTableOfEntries (entries : List AggEntry) :
    List (JValue × (Option ℚ × Option ℚ × Option ℚ)) :=
  let retained := retainedEntries entries
  (dedupFirst (retained.map modelOfEntry)).map (fun m =>
    let es := retained.filter (fun e => decide (modelOfEntry e = m))
    (m, (listMean (es.filterMap AggEntry.meanV),
         listMean (es.filterMap AggEntry.svar),
         listMean (es.filterMap (fun e => rankOfEntry entries e)))))

/-- The whole ranking mode (lines 195-230): `df[args.rank_by]` raises
`KeyError` when the requested metric is not an aggregated column. -/
def rankTableOfRows (rows : List Row) (metrics : List String) (metric : String) :
    Except PyErr (List (JValue × (Option ℚ × Option ℚ × Option ℚ))) :=
  if (aggColumns metrics).contains metric then
    Except.ok (rankTableOfEntries (aggEntries rows metric))
  else Except.error (PyErr.keyErr metric)

/-- The function `get_files` (lines 17-40): walk the directory tree — the walk itself is
the external `os.walk`, supplied as its resulting (root, filenames) pairs in
walk order — and keep `root/filename` for every file whose
`os.path.splitext` extension is `.json`. -/
def get_files (walk : List (String × List String)) : List String :=
  (walk.map (fun rf =>
    (rf.2.filter (fun fn => decide (extOf fn = ".json"))).map (pathJoin rf.1))).flatten

/-- The filename resolution of lines 72-78: when exactly one input path is
given and it is a directory, enumerate it recursively and sort; otherwise the
given paths are used as they are.  `isDir` abstracts `os.path.isdir` and
`walk` abstracts `os.walk` rooted at the given directory. -/
def resolveFilenames (isDir : String → Bool)
    (walk : String → List (String × List String)) (input : List String) : List String :=
  if input.length = 1 then
    if isDir (input.headD "") then pySorted (get_files (walk (input.headD "")))
    else input
  else input

/-- The `--ignore` substring filter (lines 77-78). -/
def applyIgnore (ignore : Option String) (filenames : List String) : List String :=
  match ignore with
  | none => filenames
  | some s => filenames.filter (fun fn => !strContains fn s)

/-- Equality of run outcomes is decidable (used to evaluate the pipeline on
the claims' concrete inputs). -/
instance {ε α : Type} [DecidableEq ε] [DecidableEq α] : DecidableEq (Except ε α) :=
  fun a b =>
    match a, b with
    | Except.ok x, Except.ok y =>
        if h : x = y then isTrue (by rw [h]) else isFalse (by intro hc; cases hc; exact h rfl)
    | Except.error x, Except.error y =>
        if h : x = y then isTrue (by rw [h]) else isFalse (by intro hc; cases hc; exact h rfl)
    | Except.ok _, Except.error _ => isFalse (by intro hc; cases hc)
    | Except.error _, Except.ok _ => isFalse (by intro hc; cases hc)

/-- Instance search does not find the nested-list instances by itself;
providing them explicitly keeps the concrete evaluations decidable. -/
instance : DecidableEq (List (List JValue × List (String × (Option ℚ × Option ℚ)))) :=
  instDecidableEqList

/-- Likewise for the rank-table row type. -/
instance : DecidableEq (List (JValue × (Option ℚ × Option ℚ × Option ℚ))) :=
  instDecidableEqList

/-! ### Concrete inputs used by the claims -/

/-- A fold-schema record with two folds `"0"` and `"1"`, no flat metric keys. -/
def mkFoldRec (a : String) (q00 q01 q02 q03 q10 q11 q12 q13 : ℚ) : RawRecord :=
  [("antibiotic", JValue.str a),
   ("0", JValue.obj [("test_source_auprc", q00), ("test_source_auroc", q01),
                     ("test_target_auprc", q02), ("test_target_auroc", q03)]),
   ("1", JValue.obj [("test_source_auprc", q10), ("test_source_auroc", q11),
                     ("test_target_auprc", q12), ("test_target_auroc", q13)])]

/-- The single row the fold branch actually appends for `mkFoldRec`: tagged
with the *last* fold and carrying the last fold's values. -/
def foldRowOf (a : String) (q10 q11 q12 q13 : ℚ) : Row :=
  [("species", JValue.str "all"), ("antibiotic", JValue.str a),
   ("model", JValue.str "lr"), ("fold", JValue.str "1"),
   ("test_source_auprc", JValue.num q10), ("test_source_auroc", JValue.num q11),
   ("test_target_auprc", JValue.num q12), ("test_target_auroc", JValue.num q13)]

/-- A flat record carrying only an `auroc` metric. -/
def c2X : RawRecord := [("antibiotic", JValue.str "a"), ("auroc", JValue.num (9/10))]

/-- A flat record carrying `auroc` and a suffix-variant key `val_auroc`. -/
def c2Y : RawRecord :=
  [("antibiotic", JValue.str "a"), ("auroc", JValue.num (9/10)),
   ("val_auroc", JValue.num (1/2))]

/-- One model, one scenario, first stratification arm. -/
def c3RecA : RawRecord :=
  [("species", JValue.str "s"), ("antibiotic", JValue.str "a"),
   ("model", JValue.str "lr"), ("train_site", JValue.str "A"),
   ("test_site", JValue.str "B"), ("auroc", JValue.num (9/10))]

/-- One model, one scenario, second stratification arm. -/
def c3RecB : RawRecord :=
  [("species", JValue.str "s"), ("antibiotic", JValue.str "a"),
   ("model", JValue.str "lr"), ("train_site", JValue.str "B"),
   ("test_site", JValue.str "A"), ("auroc", JValue.num (8/10))]

/-- Two same-group flat records with `auroc` 0.9 and 0.8. -/
def c5RecA : RawRecord := [("antibiotic", JValue.str "cipro"), ("auroc", JValue.num (9/10))]

/-- Second record of the C5 group. -/
def c5RecB : RawRecord := [("antibiotic", JValue.str "cipro"), ("auroc", JValue.num (8/10))]

/-! ### C1 -/

/-- C1 counterexample: a record with no flat metric keys and fold keys `"0"`
and `"1"`, each holding all four fold metrics, produces exactly ONE row — not
one row per fold — and that row is tagged `fold = "1"` (the last fold), so no
row tagged `fold = "0"` exists, contrary to the claim. -/
theorem c1_fold_rows_counterexample :
    (processRecords [mkFoldRec "a" 1 2 3 4 5 6 7 8]).map (fun st => st.rows.length)
        = Except.ok 1
    ∧ (processRecords [mkFoldRec "a" 1 2 3 4 5 6 7 8]).map (fun st => st.rows.length)
        ≠ Except.ok 2
    ∧ (processRecords [mkFoldRec "a" 1 2 3 4 5 6 7 8]).map
        (fun st => st.rows.map (fun r => dictGet r "fold"))
        = Except.ok [some (JValue.str "1")] := by
  refine ⟨by with_unfolding_all decide, by with_unfolding_all decide, by with_unfolding_all decide⟩

set_option maxHeartbeats 1000000 in
/-- C1 amended: for every record with no flat metric keys and numeric fold
keys `"0"` and `"1"` each mapping to the four fold metrics, the Row Builder
produces exactly one Row for the whole record; the repeated `row.update` of
the fold loop leaves it tagged with the LAST fold's identifier and carrying
the fold-schema metric names with the last fold's values copied unscaled, and
`metrics` becomes the fold-schema metric list. -/
theorem c1_fold_rows_amended (a : String) (q00 q01 q02 q03 q10 q11 q12 q13 : ℚ) :
    processRecords [mkFoldRec a q00 q01 q02 q03 q10 q11 q12 q13]
      = Except.ok ⟨[foldRowOf a q10 q11 q12 q13], foldMetricNames⟩ := by
  with_unfolding_all rfl

/-! ### C2 -/

/-- C2 counterexample: swapping the two input records changes the set of
aggregated metric columns (the mutable `metrics` list keeps only what the
LAST processed record's substring scan finds), and with it the aggregated
table: processed second, `c2Y`'s `val_auroc` key is matched by the previous
file's discovered `auroc` pattern and aggregated; processed first, it is
forgotten once `c2X` reassigns `metrics`. -/
theorem c2_order_counterexample :
    (processRecords [c2X, c2Y]).map (fun st => aggColumns st.metrics)
        = Except.ok ["auroc", "val_auroc"]
    ∧ (processRecords [c2Y, c2X]).map (fun st => aggColumns st.metrics)
        = Except.ok ["auroc"]
    ∧ (processRecords [c2X, c2Y]).map (fun st => aggTable st.rows st.metrics)
        ≠ (processRecords [c2Y, c2X]).map (fun st => aggTable st.rows st.metrics) := by
  refine ⟨by with_unfolding_all decide, by with_unfolding_all decide, by with_unfolding_all decide⟩

/-! ### C5 -/

/-- C5 counterexample: the group built from flat `auroc` values 0.9 and 0.8
aggregates (after percentage scaling) to mean 85 with SAMPLE variance 50
(pandas dispatches `np.std` to its own `ddof = 1` std), i.e. std √50 ≈ 7.07;
the claim's population standard deviation 5.0 would require variance 25,
which is the population variance of [90, 80] but not what the code computes. -/
theorem c5_std_counterexample :
    (processRecords [c5RecA, c5RecB]).map (fun st => aggTable st.rows st.metrics)
        = Except.ok [([JValue.str "all", JValue.str "cipro", JValue.str "lr"],
                      [("auroc", (some 85, some 50))])]
    ∧ popVariance [90, 80] = 25
    ∧ (50 : ℚ) ≠ 25 := by
  refine ⟨by with_unfolding_all decide, by with_unfolding_all decide, by with_unfolding_all decide⟩

/-- C5 amended: for each group and metric the Table Aggregator computes the
arithmetic mean and the SAMPLE standard deviation (Bessel-corrected,
divisor n−1): the example group aggregates, after percentage scaling, to
mean 85.0 and standard deviation √50 (variance 50), as computed by
`listMean`/`listSampleVar` over the group's scaled values [90, 80]. -/
theorem c5_mean_sample_std :
    (processRecords [c5RecA, c5RecB]).map (fun st => aggTable st.rows st.metrics)
        = Except.ok [([JValue.str "all", JValue.str "cipro", JValue.str "lr"],
                      [("auroc", (listMean [90, 80], listSampleVar [90, 80]))])]
    ∧ listMean [90, 80] = some 85
    ∧ listSampleVar [90, 80] = some 50 := by
  refine ⟨by with_unfolding_all decide, by with_unfolding_all decide, by with_unfolding_all decide⟩

/-! ### C3 -/

/-- C3 counterexample: one single model (`lr`) in one (species, antibiotic)
scenario, split over two train/test-site stratification rows: the
`valid_combinations` filter counts the two aggregated ROWS (`.size()`), not
distinct models, so the scenario is retained and the sole model receives the
averaged rank 1.5 — contradicting the claim that a one-model scenario
contributes nothing. -/
theorem c3_single_model_counterexample :
    (processRecords [c3RecA, c3RecB]).map
        (fun st => rankTableOfRows st.rows st.metrics "auroc")
      = Except.ok (Except.ok [(JValue.str "lr", (some 85, none, some (3/2)))])
    ∧ (processRecords [c3RecA, c3RecB]).map
        (fun st => rankTableOfRows st.rows st.metrics "auroc")
      ≠ Except.ok (Except.ok []) := by
  refine ⟨by with_unfolding_all decide, by with_unfolding_all decide⟩

/-- Reduction of the `Except` monad's bind on a success value. -/
theorem exceptBindOk {ε α β : Type} (a : α) (f : α → Except ε β) :
    (Except.ok a >>= f) = f a := rfl

/-- Reduction of the `Except` monad's bind on an error value. -/
theorem exceptBindErr {ε α β : Type} (e : ε) (f : α → Except ε β) :
    (Except.error e >>= f) = Except.error e := rfl

/-! ### C4 -/

/-- C4: whenever a file has any content after the prefix-skip offset (some
line begins with `{`) and that content is not well-formed JSON (`parse`
returns `none`), the run aborts with a fatal error, wherever the file sits in
the batch — it is never silently skipped. -/
theorem c4_malformed_fatal (parse : List String → Option RawRecord)
    (files₁ files₂ : List (List String)) (f : List String)
    (h1 : dropToBrace f ≠ []) (h2 : parse (dropToBrace f) = none) :
    ∃ e, processFiles parse (files₁ ++ f :: files₂) = Except.error e := by
  unfold processFiles
  rw [List.foldlM_append]
  cases hfold : List.foldlM (fileStep parse) initState files₁ with
  | error e => exact ⟨e, by simp [exceptBindErr]⟩
  | ok st =>
      refine ⟨PyErr.jsonErr, ?_⟩
      have hstep : fileStep parse st f = Except.error PyErr.jsonErr := by
        unfold fileStep
        cases hd : dropToBrace f with
        | nil => exact absurd hd h1
        | cons a as =>
            rw [hd] at h2
            simp [h2]
      simp [List.foldlM_cons, hstep, exceptBindOk, exceptBindErr]

/-- The abstract parse used to instantiate the loader claims: rejects
everything. -/
def noParse : List String → Option RawRecord := fun _ => none

/-- C4 witness: a one-file batch whose single line starts with `{` but does
not parse aborts the run. -/
theorem c4_malformed_witness :
    dropToBrace ["\x7bnot json"] ≠ []
    ∧ noParse (dropToBrace ["\x7bnot json"]) = none
    ∧ ∃ e, processFiles noParse [["\x7bnot json"]] = Except.error e := by
  refine ⟨by with_unfolding_all decide, rfl, ?_⟩
  have h := c4_malformed_fatal noParse [] [] ["\x7bnot json"]
    (by with_unfolding_all decide) rfl
  simpa using h

/-! ### C8 -/

/-- C8: a file none of whose lines begins with `{` (only whitespace or log
text before the would-be JSON, and nothing after the detected offset) is
skipped: removing it from the batch changes neither the loader state (rows
and metrics) nor the aggregated table computed from it. -/
theorem c8_empty_file_skipped (parse : List String → Option RawRecord)
    (files₁ files₂ : List (List String)) (f : List String)
    (h : ∀ l ∈ f, l.startsWith "\x7b" = false) :
    processFiles parse (files₁ ++ f :: files₂) = processFiles parse (files₁ ++ files₂)
    ∧ (processFiles parse (files₁ ++ f :: files₂)).map (fun st => aggTable st.rows st.metrics)
        = (processFiles parse (files₁ ++ files₂)).map (fun st => aggTable st.rows st.metrics) := by
  have hdrop : dropToBrace f = [] := by
    induction f with
    | nil => rfl
    | cons l ls ih =>
        have hl := h l (List.mem_cons_self l ls)
        simp only [dropToBrace, hl, Bool.false_eq_true, if_false]
        exact ih (fun x hx => h x (List.mem_cons_of_mem l hx))
  have hmain : processFiles parse (files₁ ++ f :: files₂)
      = processFiles parse (files₁ ++ files₂) := by
    unfold processFiles
    rw [List.foldlM_append, List.foldlM_append]
    cases hfold : List.foldlM (fileStep parse) initState files₁ with
    | error e => simp [exceptBindErr]
    | ok st =>
        have hstep : fileStep parse st f = Except.ok st := by
          unfold fileStep
          rw [hdrop]
        simp [List.foldlM_cons, hstep, exceptBindOk]
  exact ⟨hmain, by rw [hmain]⟩

/-- The abstract parse used by the C8 witness: accepts the single-brace file. -/
def c8Parse : List String → Option RawRecord :=
  fun ls =>
    if ls = ["\x7b\"antibiotic\": \"a\"\x7d"] then
      some [("antibiotic", JValue.str "a"), ("auroc", JValue.num (9/10))]
    else none

/-- C8 witness: dropping a log-only file from a two-file batch leaves the run
state unchanged. -/
theorem c8_empty_file_witness :
    (∀ l ∈ ["log only"], l.startsWith "\x7b" = false)
    ∧ processFiles c8Parse [["\x7b\"antibiotic\": \"a\"\x7d"], ["log only"]]
        = processFiles c8Parse [["\x7b\"antibiotic\": \"a\"\x7d"]] := by
  refine ⟨by with_unfolding_all decide, ?_⟩
  have h := (c8_empty_file_skipped c8Parse [["\x7b\"antibiotic\": \"a\"\x7d"]] [] ["log only"]
    (by with_unfolding_all decide)).1
  simpa using h

/-! ### C9 -/

/-- C9: a parsed record with no `antibiotic` key makes the Row Builder raise
`KeyError('antibiotic')`, and any batch containing such a record aborts with
a fatal error — the record is never silently dropped. -/
theorem c9_missing_antibiotic_fatal (metrics : List String)
    (recs₁ recs₂ : List RawRecord) (rec : RawRecord)
    (h : dictGet rec "antibiotic" = none) :
    buildRow metrics rec = Except.error (PyErr.keyErr "antibiotic")
    ∧ ∃ e, processRecords (recs₁ ++ rec :: recs₂) = Except.error e := by
  have hb : ∀ ms, buildRow ms rec = Except.error (PyErr.keyErr "antibiotic") := by
    intro ms
    unfold buildRow
    rw [h]
    rfl
  refine ⟨hb metrics, ?_⟩
  unfold processRecords
  rw [List.foldlM_append]
  cases hfold : List.foldlM recordStep initState recs₁ with
  | error e => exact ⟨e, by simp [exceptBindErr]⟩
  | ok st =>
      refine ⟨PyErr.keyErr "antibiotic", ?_⟩
      have hstep : recordStep st rec = Except.error (PyErr.keyErr "antibiotic") := by
        unfold recordStep
        rw [hb st.metrics]
        rfl
      simp [List.foldlM_cons, hstep, exceptBindOk, exceptBindErr]

/-- A record without the required `antibiotic` key. -/
def c9Rec : RawRecord := [("species", JValue.str "x")]

/-- C9 witness: a one-record batch lacking `antibiotic` aborts. -/
theorem c9_missing_antibiotic_witness :
    dictGet c9Rec "antibiotic" = none
    ∧ buildRow metricsInit c9Rec = Except.error (PyErr.keyErr "antibiotic")
    ∧ ∃ e, processRecords [c9Rec] = Except.error e := by
  have h := c9_missing_antibiotic_fatal metricsInit [] [] c9Rec (by with_unfolding_all decide)
  exact ⟨by with_unfolding_all decide, h.1, by simpa using h.2⟩

/-! ### C6 -/

/-- C6: within a scenario, entries are ranked by descending mean with
average-rank tie handling: when exactly two entries share the maximal mean
they both get rank 1.5, and an entry strictly below them that is the unique
next value (everything else is at or below it) gets rank 3. -/
theorem c6_tied_average_ranks (entries : List AggEntry) (e f : AggEntry) (M w : ℚ)
    (hsc : scenKey f.key = scenKey e.key)
    (hme : e.meanV = some M) (hmf : f.meanV = some w)
    (hmax : ∀ u ∈ scenMeans entries e, u ≤ M)
    (h2 : (scenMeans entries e).countP (fun u => decide (u = M)) = 2)
    (hw : w < M)
    (h1 : (scenMeans entries e).countP (fun u => decide (u = w)) = 1)
    (hlow : ∀ u ∈ scenMeans entries e, u = M ∨ u ≤ w) :
    rankOfEntry entries e = some (3/2) ∧ rankOfEntry entries f = some 3 := by
  have hsm : scenMeans entries f = scenMeans entries e := by
    unfold scenMeans
    rw [hsc]
  have hgt : (scenMeans entries e).countP (fun u => decide (M < u)) = 0 := by
    apply List.countP_eq_zero.mpr
    intro u hu
    simpa using not_lt.mpr (hmax u hu)
  have hgtw : (scenMeans entries e).countP (fun u => decide (w < u))
      = (scenMeans entries e).countP (fun u => decide (u = M)) := by
    apply List.countP_congr
    intro u hu
    simp only [decide_eq_true_eq]
    constructor
    · intro hwu
      rcases hlow u hu with h | h
      · exact h
      · exact absurd hwu (not_lt.mpr h)
    · intro hum
      rw [hum]
      exact hw
  constructor
  · unfold rankOfEntry
    rw [hme]
    simp only [Option.map_some']
    unfold avgRank
    rw [hgt, h2]
    norm_num
  · unfold rankOfEntry
    rw [hmf]
    simp only [Option.map_some']
    unfold avgRank
    rw [hsm, hgtw, h2, h1]
    norm_num

/-- First tied-best entry of the C6 witness scenario. -/
def c6E1 : AggEntry := ⟨[JValue.str "s", JValue.str "a", JValue.str "lr"], some 90, none⟩

/-- Second tied-best entry of the C6 witness scenario. -/
def c6E2 : AggEntry := ⟨[JValue.str "s", JValue.str "a", JValue.str "rf"], some 90, none⟩

/-- The next-best entry of the C6 witness scenario. -/
def c6E3 : AggEntry := ⟨[JValue.str "s", JValue.str "a", JValue.str "svm"], some 80, none⟩

/-- The C6 witness scenario: two models tied at mean 90, one at 80. -/
def c6Entries : List AggEntry := [c6E1, c6E2, c6E3]

/-- C6 witness: in the concrete three-model scenario the tied leaders rank
1.5 and the third model ranks 3. -/
theorem c6_tied_average_ranks_witness :
    rankOfEntry c6Entries c6E1 = some (3/2) ∧ rankOfEntry c6Entries c6E3 = some 3 := by
  have h := c6_tied_average_ranks c6Entries c6E1 c6E3 90 80
    (by with_unfolding_all decide)
    rfl rfl
    (by with_unfolding_all decide)
    (by with_unfolding_all decide)
    (by with_unfolding_all decide)
    (by with_unfolding_all decide)
    (by with_unfolding_all decide)
  exact h

/-! ### C7 -/

/-- C7 counterexample: two literal path arguments are processed exactly in
the given order — `["b.json", "a.json"]` stays `["b.json", "a.json"]`, which
is not lexicographically sorted, contradicting "in both cases the output
ordering is lexicographic". -/
theorem c7_literal_order_counterexample :
    resolveFilenames (fun _ => false) (fun _ => []) ["b.json", "a.json"]
        = ["b.json", "a.json"]
    ∧ ¬ List.Sorted pyLe
        (resolveFilenames (fun _ => false) (fun _ => []) ["b.json", "a.json"]) := by
  refine ⟨rfl, ?_⟩
  with_unfolding_all decide

/-- C7 amended: when exactly one path is given and it is a directory, the
walk's `.json` files are enumerated and the processed sequence is sorted
lexicographically; in every other case the given paths are taken literally,
in their original order (which need not be sorted). -/
theorem c7_resolution_order_amended (isDir : String → Bool)
    (walk : String → List (String × List String)) (input : List String) :
    ((∃ d, input = [d] ∧ isDir d = true) →
      List.Sorted pyLe (resolveFilenames isDir walk input))
    ∧ ((∀ d, input = [d] → isDir d = false) →
      resolveFilenames isDir walk input = input) := by
  constructor
  · rintro ⟨d, rfl, hdir⟩
    have hres : resolveFilenames isDir walk [d] = pySorted (get_files (walk d)) := by
      unfold resolveFilenames
      simp [hdir]
    rw [hres]
    exact List.sorted_insertionSort pyLe _
  · intro hnot
    unfold resolveFilenames
    cases input with
    | nil => simp
    | cons a as =>
        cases as with
        | nil => simp [hnot a rfl]
        | cons b bs => simp

/-- The directory walk used by the C7 witness. -/
def c7Walk : String → List (String × List String) :=
  fun _ => [("d", ["b.json", "a.json"])]

/-- C7 witness: the directory case is sorted, and a two-path literal list is
returned unchanged. -/
theorem c7_resolution_order_witness :
    List.Sorted pyLe (resolveFilenames (fun _ => true) c7Walk ["d"])
    ∧ resolveFilenames (fun _ => false) c7Walk ["b.json", "a.json"]
        = ["b.json", "a.json"] :=
  ⟨(c7_resolution_order_amended (fun _ => true) c7Walk ["d"]).1 ⟨"d", rfl, rfl⟩,
   (c7_resolution_order_amended (fun _ => false) c7Walk ["b.json", "a.json"]).2
     (fun d h => by simp at h)⟩

/-! ### C10 -/

/-- A lookup list (`mapM`) over the grouping columns is `none` as soon as one
column is missing from the row. -/
theorem mapM_dictGet_none (cols : List String) (r : Row) (c : String)
    (hc : c ∈ cols) (hr : dictGet r c = none) :
    cols.mapM (dictGet r) = none := by
  induction cols with
  | nil => cases hc
  | cons a as ih =>
      rcases List.mem_cons.mp hc with rfl | hmem
      · rw [List.mapM_cons, hr]
        rfl
      · rw [List.mapM_cons]
        cases ha : dictGet r a with
        | none => rfl
        | some v =>
            simp only [ih hmem]
            rfl

/-- C10: in a batch where the columns of a stratification pair both occur
somewhere, the pair joins the grouping key, and any row missing a component
of the pair has group key `none` — it belongs to no group of the aggregation,
i.e. it is silently dropped, and no error is produced (the aggregation is a
total function). -/
theorem c10_mixed_strat_dropped (rows : List Row) (r : Row) (c₁ c₂ : String)
    (hpair : (c₁, c₂) = ("train_site", "test_site")
      ∨ (c₁, c₂) = ("train_years", "test_years"))
    (h₁ : hasColumn rows c₁ = true) (h₂ : hasColumn rows c₂ = true)
    (hr : dictGet r c₁ = none) :
    c₁ ∈ groupColumns rows
    ∧ rowKey (groupColumns rows) r = none
    ∧ ∀ key, r ∉ groupRows (groupColumns rows) rows key := by
  have hmem : c₁ ∈ groupColumns rows := by
    rcases hpair with hp | hp
    · have e1 : c₁ = "train_site" := congrArg Prod.fst hp
      have e2 : c₂ = "test_site" := congrArg Prod.snd hp
      subst e1; subst e2
      unfold groupColumns
      rw [h₁, h₂]
      simp
    · have e1 : c₁ = "train_years" := congrArg Prod.fst hp
      have e2 : c₂ = "test_years" := congrArg Prod.snd hp
      subst e1; subst e2
      unfold groupColumns
      rw [h₁, h₂]
      simp
  have hnone : rowKey (groupColumns rows) r = none := by
    unfold rowKey
    exact mapM_dictGet_none _ r c₁ hmem hr
  refine ⟨hmem, hnone, ?_⟩
  intro key hin
  unfold groupRows at hin
  have h3 := (List.mem_filter.mp hin).2
  rw [hnone] at h3
  simp at h3

/-- A row carrying the stratification pair. -/
def c10RowWith : Row :=
  [("species", JValue.str "all"), ("antibiotic", JValue.str "a"),
   ("model", JValue.str "lr"), ("train_site", JValue.str "A"),
   ("test_site", JValue.str "B"), ("auroc", JValue.num 90)]

/-- A row of the same batch lacking the pair. -/
def c10RowWithout : Row :=
  [("species", JValue.str "all"), ("antibiotic", JValue.str "a"),
   ("model", JValue.str "lr"), ("auroc", JValue.num 80)]

/-- C10 witness: in the concrete mixed batch the site columns join the key
and the row without them is dropped from the group of the row that has them. -/
theorem c10_mixed_strat_witness :
    rowKey (groupColumns [c10RowWith, c10RowWithout]) c10RowWithout = none
    ∧ c10RowWithout ∉ groupRows (groupColumns [c10RowWith, c10RowWithout])
        [c10RowWith, c10RowWithout]
        [JValue.str "all", JValue.str "a", JValue.str "lr",
         JValue.str "A", JValue.str "B"] := by
  have h := c10_mixed_strat_dropped [c10RowWith, c10RowWithout] c10RowWithout
    "train_site" "test_site" (Or.inl rfl)
    (by with_unfolding_all decide) (by with_unfolding_all decide)
    (by with_unfolding_all decide)
  exact ⟨h.2.1, h.2.2 _⟩

/-- Any-search over a list is invariant under permutation. -/
theorem anyPermEq {α : Type} (p : α → Bool) {l₁ l₂ : List α} (h : l₁.Perm l₂) :
    l₁.any p = l₂.any p := by
  cases h1 : l₁.any p with
  | true =>
      rcases List.any_eq_true.mp h1 with ⟨x, hx, hp⟩
      exact (List.any_eq_true.mpr ⟨x, h.mem_iff.mp hx, hp⟩).symm
  | false =>
      cases h2 : l₂.any p with
      | false => rfl
      | true =>
          rcases List.any_eq_true.mp h2 with ⟨x, hx, hp⟩
          have hcontra : l₁.any p = true :=
            List.any_eq_true.mpr ⟨x, h.mem_iff.mpr hx, hp⟩
          rw [h1] at hcontra
          cases hcontra

/-- The mean is a function of the multiset of values. -/
theorem listMeanPerm {v₁ v₂ : List ℚ} (h : v₁.Perm v₂) : listMean v₁ = listMean v₂ := by
  unfold listMean
  rw [h.length_eq, h.sum_eq]

/-- The sample variance is a function of the multiset of values. -/
theorem listSampleVarPerm {v₁ v₂ : List ℚ} (h : v₁.Perm v₂) :
    listSampleVar v₁ = listSampleVar v₂ := by
  unfold listSampleVar
  rw [h.length_eq, h.sum_eq, (h.map _).sum_eq]

/-! ### C2 amended -/

/-- C2 amended: the aggregation itself is order-insensitive — permuting the
built row list changes neither the grouping columns nor any group's
(mean, variance) summary for any metric.  What fails in the original claim
is the column set: `metrics` is reassigned on every processed file, so the
set of aggregated metric columns is the one discovered from the LAST file
and can change when the file list is permuted (see the counterexample). -/
theorem c2_agg_perm_invariant (rows rows' : List Row) (h : rows.Perm rows')
    (key : List JValue) (metric : String) :
    groupColumns rows' = groupColumns rows
    ∧ aggSummary rows' key metric = aggSummary rows key metric := by
  have hcol : ∀ c, hasColumn rows' c = hasColumn rows c := by
    intro c
    exact (anyPermEq _ h).symm
  have hgroup : groupColumns rows' = groupColumns rows := by
    unfold groupColumns
    simp only [hcol]
  refine ⟨hgroup, ?_⟩
  have hvals : (groupVals (groupColumns rows') rows' key metric).Perm
      (groupVals (groupColumns rows) rows key metric) := by
    rw [hgroup]
    unfold groupVals groupRows
    exact ((h.filter _).filterMap _).symm
  unfold aggSummary
  exact Prod.ext (listMeanPerm hvals) (listSampleVarPerm hvals)

/-- First row of the C2 witness group. -/
def c2WRow1 : Row :=
  [("species", JValue.str "all"), ("antibiotic", JValue.str "a"),
   ("model", JValue.str "lr"), ("auroc", JValue.num 90)]

/-- Second row of the C2 witness group. -/
def c2WRow2 : Row :=
  [("species", JValue.str "all"), ("antibiotic", JValue.str "a"),
   ("model", JValue.str "lr"), ("auroc", JValue.num 80)]

/-- C2 witness: swapping two concrete rows leaves the grouping columns and
the group summary unchanged. -/
theorem c2_agg_perm_witness :
    groupColumns [c2WRow2, c2WRow1] = groupColumns [c2WRow1, c2WRow2]
    ∧ aggSummary [c2WRow2, c2WRow1]
        [JValue.str "all", JValue.str "a", JValue.str "lr"] "auroc"
      = aggSummary [c2WRow1, c2WRow2]
        [JValue.str "all", JValue.str "a", JValue.str "lr"] "auroc" :=
  c2_agg_perm_invariant [c2WRow1, c2WRow2] [c2WRow2, c2WRow1]
    (List.Perm.swap c2WRow2 c2WRow1 [])
    [JValue.str "all", JValue.str "a", JValue.str "lr"] "auroc"

/-! ### C3 amended -/

/-- The ranking frame with one scenario's entries removed. -/
def scenErase (entries : List AggEntry) (s : List JValue) : List AggEntry :=
  entries.filter (fun e => !(decide (scenKey e.key = s)))

/-- Removing scenario `s` does not change the row count of any other
scenario. -/
theorem scenSize_scenErase (entries : List AggEntry) (s t : List JValue)
    (h : t ≠ s) :
    scenSize (scenErase entries s) t = scenSize entries t := by
  unfold scenSize scenErase
  rw [List.countP_filter]
  apply List.countP_congr
  intro e he
  simp only [Bool.and_eq_true, decide_eq_true_eq, Bool.not_eq_true', decide_eq_false_iff_not]
  constructor
  · intro hp
    exact hp.1
  · intro hp
    exact ⟨hp, fun hq => h (hp ▸ hq)⟩

/-- Removing scenario `s` does not change the competing means of an entry of
another scenario. -/
theorem scenMeans_scenErase (entries : List AggEntry) (s : List JValue)
    (e : AggEntry) (he : scenKey e.key ≠ s) :
    scenMeans (scenErase entries s) e = scenMeans entries e := by
  unfold scenMeans scenErase
  rw [List.filter_filter]
  congr 1
  apply List.filter_congr
  intro x hx
  by_cases hxe : scenKey x.key = scenKey e.key
  · simp [hxe, he]
  · simp [hxe]

/-- Removing a scenario with at most one row does not change the retained
(valid-combination) entries. -/
theorem retained_scenErase (entries : List AggEntry) (s : List JValue)
    (hs : scenSize entries s ≤ 1) :
    retainedEntries (scenErase entries s) = retainedEntries entries := by
  unfold retainedEntries
  unfold scenErase
  rw [List.filter_filter]
  apply List.filter_congr
  intro e he
  by_cases hes : scenKey e.key = s
  · have h1 : ¬ 1 < scenSize entries s := by omega
    rw [hes]
    simp [h1]
  · have h2 := scenSize_scenErase entries s (scenKey e.key) hes
    unfold scenErase at h2
    simp [hes, h2]

/-- Removing a scenario with at most one row does not change the rank of an
entry of another scenario. -/
theorem rank_scenErase (entries : List AggEntry) (s : List JValue)
    (e : AggEntry) (he : scenKey e.key ≠ s) :
    rankOfEntry (scenErase entries s) e = rankOfEntry entries e := by
  unfold rankOfEntry
  rw [scenMeans_scenErase entries s e he]

/-- C3 amended: the `valid_combinations` filter counts aggregated table ROWS
(group-key combinations) per (species, antibiotic) scenario — not distinct
models — and keeps scenarios with at least two rows.  A scenario contributing
exactly one aggregated row is excluded entirely: none of its entries is
retained, and deleting it from the frame leaves the whole rank table
unchanged.  (With stratification columns active one model can own several
rows of a scenario and is then retained and ranked against itself, as the
counterexample shows.) -/
theorem c3_singleton_scenario_excluded (entries : List AggEntry) (s : List JValue)
    (h1 : scenSize entries s = 1) :
    (∀ e ∈ retainedEntries entries, scenKey e.key ≠ s)
    ∧ rankTableOfEntries (scenErase entries s) = rankTableOfEntries entries := by
  have hnot : ∀ e ∈ retainedEntries entries, scenKey e.key ≠ s := by
    intro e he hcontra
    have h3 := (List.mem_filter.mp he).2
    rw [hcontra] at h3
    simp [h1] at h3
  refine ⟨hnot, ?_⟩
  have hret := retained_scenErase entries s (by omega)
  unfold rankTableOfEntries
  rw [hret]
  apply List.map_congr_left
  intro m hm
  have hfm : ((retainedEntries entries).filter
        (fun e => decide (modelOfEntry e = m))).filterMap
          (fun e => rankOfEntry (scenErase entries s) e)
      = ((retainedEntries entries).filter
        (fun e => decide (modelOfEntry e = m))).filterMap
          (fun e => rankOfEntry entries e) := by
    apply List.filterMap_congr
    intro e he
    exact rank_scenErase entries s e (hnot e (List.mem_filter.mp he).1)
  simp only [hfm]

/-- The C3 witness frame: one singleton scenario and one two-row scenario. -/
def c3WEntries : List AggEntry :=
  [⟨[JValue.str "s1", JValue.str "a1", JValue.str "m1"], some 70, none⟩,
   ⟨[JValue.str "s2", JValue.str "a2", JValue.str "m2"], some 90, none⟩,
   ⟨[JValue.str "s2", JValue.str "a2", JValue.str "m3"], some 80, none⟩]

/-- C3 witness: the singleton scenario `(s1, a1)` can be deleted without
changing the rank table. -/
theorem c3_singleton_scenario_witness :
    scenSize c3WEntries [JValue.str "s1", JValue.str "a1"] = 1
    ∧ rankTableOfEntries (scenErase c3WEntries [JValue.str "s1", JValue.str "a1"])
        = rankTableOfEntries c3WEntries :=
  ⟨by with_unfolding_all decide,
   (c3_singleton_scenario_excluded c3WEntries [JValue.str "s1", JValue.str "a1"]
     (by with_unfolding_all decide)).2⟩
